import Mathlib

/-!
Verification development for the spelling-bee-web server core: the game
state machine (`src/server/gameLogic.js`), the room registry
(`roomManager.js`) and the socket handler layer (`socketHandlers.js`),
shallowly embedded in Lean.  JavaScript objects used as string-keyed maps
are modelled as insertion-ordered association lists (socket-id keys are
never array indices, so JS preserves insertion order); wall-clock
timestamps are passed in as explicit `Nat` parameters; the nondeterministic
puzzle source `wordData.getRandomPuzzle()` becomes an explicit puzzle
argument; `Math.random`-driven code generation becomes an explicit stream
of generated numbers.  Thrown JS errors become `Except.error` with the
source's message strings.
-/

namespace SpellingBee

/-- Association-list lookup: first binding for the key, as JS property read. -/
def alookup {α : Type} (k : String) : List (String × α) → Option α
  | [] => none
  | kp :: l => if kp.1 = k then some kp.2 else alookup k l

/-- Association-list write, as JS property assignment: an existing key keeps
its position, a new key is appended at the end. -/
def aset {α : Type} (k : String) (v : α) : List (String × α) → List (String × α)
  | [] => [(k, v)]
  | kp :: l => if kp.1 = k then (k, v) :: l else kp :: aset k v l

/-- Association-list delete of the first binding of the key, as `Map.delete`. -/
def aerase {α : Type} (k : String) : List (String × α) → List (String × α)
  | [] => []
  | kp :: l => if kp.1 = k then l else kp :: aerase k l

/-- Values of an association list in insertion order, as `Object.values`. -/
def avalues {α : Type} (l : List (String × α)) : List α :=
  l.map Prod.snd

/-- Puzzle record from the puzzle catalog (`wordData.js`). -/
structure Puzzle where
  centerLetter : Char
  outerLetters : List Char
  validWords : List String
  pangrams : List String
deriving DecidableEq

/-- One submitted word as stored on a player (`player.words` entries). -/
structure WordEntry where
  word : String
  points : Int
  isPangram : Bool
  submittedAt : Nat
deriving DecidableEq

/-- Player record as created by `GameLogic.addPlayer`.  In the JS source the
field `hasSubmittedResults` is absent (`undefined`) until `startRound` first
resets it; every read of it in the source is the check `=== true`, for which
`undefined` behaves exactly like `false`, so it is modelled as a `Bool`
starting at `false`. -/
structure Player where
  id : String
  name : String
  words : List WordEntry
  roundScore : Int
  totalScore : Int
  ready : Bool
  connected : Bool
  hasSubmittedResults : Bool
  joinedAt : Nat
deriving DecidableEq

/-- Values of `gameStatus`. -/
inductive GameStatus where
  | waiting
  | playing
  | betweenRounds
  | finished
deriving DecidableEq

/-- Values of `roundStatus`. -/
inductive RoundStatus where
  | waiting
  | active
  | ended
deriving DecidableEq

/-- Per-player snapshot inside a `RoundResult` (`GameLogic.endRound`). -/
structure PlayerSnapshot where
  name : String
  words : List WordEntry
  roundScore : Int
  totalScore : Int
  wordCount : Nat
deriving DecidableEq

/-- Result of one round, appended to `game.roundResults` by `endRound`. -/
structure RoundResult where
  round : Nat
  endedAt : Nat
  puzzle : Puzzle
  players : List (String × PlayerSnapshot)
deriving DecidableEq

/-- Ranked score entry built by `GameLogic.finishGame`. -/
structure ScoreEntry where
  id : String
  name : String
  totalScore : Int
  totalWords : Nat
deriving DecidableEq

/-- Final results built by `GameLogic.finishGame`. -/
structure FinalResults where
  winner : Option ScoreEntry
  isTie : Bool
  finalScores : List ScoreEntry
  puzzlesUsed : List Puzzle
  finishedAt : Nat
deriving DecidableEq

/-- Game state as created by `GameLogic.createGame`. -/
structure Game where
  roomCode : String
  puzzle : Puzzle
  puzzles : List Puzzle
  currentRound : Nat
  totalRounds : Nat
  gameStatus : GameStatus
  roundStatus : RoundStatus
  roundStartTime : Option Nat
  roundEndTime : Option Nat
  players : List (String × Player)
  roundResults : List RoundResult
  finalResults : Option FinalResults
  createdAt : Nat
deriving DecidableEq

/-- One word of a client submission (`submit-round-results` payload). -/
structure SubmittedWord where
  word : String
  points : Int
  isPangram : Bool
deriving DecidableEq

/-- Client submission payload handed to `processRoundResults`. -/
structure Submission where
  words : List SubmittedWord
  totalScore : Int
deriving DecidableEq

/-- Acknowledgement value returned by `processRoundResults`. -/
structure SubmitResult where
  wordsAccepted : Nat
  roundScore : Int
deriving DecidableEq

/-- Round info returned by `startRound`. -/
structure RoundInfo where
  round : Nat
  totalRounds : Nat
  duration : Nat
  startTime : Nat
  endTime : Nat
  puzzle : Puzzle
deriving DecidableEq

namespace GameLogic

/-- Constant `this.TOTAL_ROUNDS` of `GameLogic`. -/
def TOTAL_ROUNDS : Nat := 3

/-- Constant `this.ROUND_DURATION` of `GameLogic` (seconds). -/
def ROUND_DURATION : Nat := 90

/-- Constant `this.MIN_PLAYERS` of `GameLogic`. -/
def MIN_PLAYERS : Nat := 2

/-- Constant `this.MAX_PLAYERS` of `GameLogic`. -/
def MAX_PLAYERS : Nat := 8

/-- Translation of `GameLogic.createGame(roomCode, initialPuzzle)`. -/
def createGame (roomCode : String) (initialPuzzle : Puzzle) (now : Nat) : Game :=
  { roomCode := roomCode
    puzzle := initialPuzzle
    puzzles := [initialPuzzle]
    currentRound := 0
    totalRounds := TOTAL_ROUNDS
    gameStatus := GameStatus.waiting
    roundStatus := RoundStatus.waiting
    roundStartTime := none
    roundEndTime := none
    players := []
    roundResults := []
    finalResults := none
    createdAt := now }

/-- Translation of `GameLogic.addPlayer(game, playerId, playerName)`.  The JS default name
`playerName || Player N` treats the empty string and a missing name as
falsy; a missing name is modelled as `""`. -/
def addPlayer (g : Game) (playerId playerName : String) (now : Nat) :
    Except String (Game × Player) :=
  if MAX_PLAYERS ≤ g.players.length then Except.error "Game is full"
  else
    let name := if playerName = "" then "Player " ++ toString (g.players.length + 1)
                else playerName
    let p : Player :=
      { id := playerId, name := name, words := [], roundScore := 0, totalScore := 0
        ready := false, connected := true, hasSubmittedResults := false, joinedAt := now }
    Except.ok ({ g with players := aset playerId p g.players }, p)

/-- Translation of `GameLogic.canStartGame(game)`. -/
def canStartGame (g : Game) : Bool :=
  decide (MIN_PLAYERS ≤ g.players.length)
    && (avalues g.players).all (fun p => p.ready && p.connected)
    && decide (g.gameStatus = GameStatus.waiting)

/-- Translation of `GameLogic.startRound(game)`.  The fresh puzzle that
`wordData.getRandomPuzzle()` would return for rounds after the first is an
explicit argument; timestamps are the explicit `now`. -/
def startRound (g : Game) (newPuzzle : Puzzle) (now : Nat) :
    Except String (Game × RoundInfo) :=
  if TOTAL_ROUNDS ≤ g.currentRound then Except.error "All rounds completed"
  else
    let g1 := { g with currentRound := g.currentRound + 1 }
    let g2 := if 1 < g1.currentRound then
                { g1 with puzzle := newPuzzle, puzzles := g1.puzzles ++ [newPuzzle] }
              else g1
    let g3 := { g2 with
      gameStatus := GameStatus.playing
      roundStatus := RoundStatus.active
      roundStartTime := some now
      roundEndTime := some (now + ROUND_DURATION)
      players := g2.players.map (fun kp => (kp.1,
        { kp.2 with words := [], roundScore := 0, ready := false,
                    hasSubmittedResults := false })) }
    Except.ok (g3,
      { round := g3.currentRound, totalRounds := TOTAL_ROUNDS,
        duration := ROUND_DURATION, startTime := now,
        endTime := now + ROUND_DURATION, puzzle := g3.puzzle })

/-- Translation of `GameLogic.processRoundResults(game, playerId, results)`.  A late
submission (round no longer active) is only logged in the source, so it has
no effect here; the client data is trusted verbatim. -/
def processRoundResults (g : Game) (playerId : String) (results : Submission)
    (now : Nat) : Except String (Game × SubmitResult) :=
  match alookup playerId g.players with
  | none => Except.error "Player not found"
  | some p =>
    let newWords := results.words.map (fun w =>
      ({ word := w.word.toLower, points := w.points, isPangram := w.isPangram,
         submittedAt := now } : WordEntry))
    let p' := { p with words := newWords, roundScore := results.totalScore,
                       hasSubmittedResults := true }
    Except.ok ({ g with players := aset playerId p' g.players },
      { wordsAccepted := newWords.length, roundScore := results.totalScore })

/-- Translation of `GameLogic.getRoundResults(game, roundNumber)` with a round number. -/
def getRoundResults (g : Game) (roundNumber : Nat) : Option RoundResult :=
  g.roundResults.find? (fun r => decide (r.round = roundNumber))

/-- Total word count of a player across `game.roundResults`
(the `totalWords` reduce inside `finishGame`). -/
def totalWordsOf (g : Game) (pid : String) : Nat :=
  g.roundResults.foldl
    (fun sum rr => sum + (((alookup pid rr.players).map PlayerSnapshot.wordCount).getD 0))
    0

/-- Score entries `finishGame` builds from `Object.values(game.players)`. -/
def scoreEntries (g : Game) : List ScoreEntry :=
  (avalues g.players).map (fun p =>
    { id := p.id, name := p.name, totalScore := p.totalScore,
      totalWords := totalWordsOf g p.id })

/-- Comparison used by `finishGame`'s `sort((a, b) => b.totalScore - a.totalScore)`. -/
def scoreGE (a b : ScoreEntry) : Prop :=
  b.totalScore ≤ a.totalScore

instance : DecidableRel scoreGE :=
  fun a b => inferInstanceAs (Decidable (b.totalScore ≤ a.totalScore))

instance : IsTotal ScoreEntry scoreGE :=
  ⟨fun a b => Int.le_total b.totalScore a.totalScore⟩

instance : IsTrans ScoreEntry scoreGE :=
  ⟨fun _ _ _ hab hbc => le_trans hbc hab⟩

/-- Stable descending sort by `totalScore`, as the stable JS `Array.sort`
with comparator `(a, b) => b.totalScore - a.totalScore`. -/
def sortScoresDesc (l : List ScoreEntry) : List ScoreEntry :=
  List.insertionSort scoreGE l

/-- Translation of `GameLogic.finishGame(game)`.  With an empty player list the source
raises a `TypeError` (reading `winner.name` of `undefined`) after setting
`gameStatus` but before storing `finalResults`; that corner is modelled by
returning `none` for the final results with `finalResults` left unchanged. -/
def finishGame (g : Game) (now : Nat) : Game × Option FinalResults :=
  let g1 := { g with gameStatus := GameStatus.finished }
  let playerScores := sortScoresDesc (scoreEntries g1)
  match playerScores with
  | [] => (g1, none)
  | winner :: _ =>
    let isTie := decide (1 < playerScores.length)
      && decide (1 < (playerScores.filter
            (fun p => decide (p.totalScore = winner.totalScore))).length)
    let fr : FinalResults :=
      { winner := if isTie then none else some winner
        isTie := isTie
        finalScores := playerScores
        puzzlesUsed := g1.puzzles
        finishedAt := now }
    ({ g1 with finalResults := some fr }, some fr)

/-- Translation of `GameLogic.endRound(game)`.  When `finishGame` raises on an empty player
list, the mutations made so far persist and no round result is returned. -/
def endRound (g : Game) (now : Nat) : Game × Option RoundResult :=
  if g.roundStatus = RoundStatus.ended then
    (g, getRoundResults g g.currentRound)
  else
    let g1 := { g with roundStatus := RoundStatus.ended, roundEndTime := some now }
    let g2 := { g1 with players := g1.players.map (fun kp : String × Player => (kp.1,
      { kp.2 with totalScore := kp.2.totalScore + kp.2.roundScore })) }
    let rr : RoundResult :=
      { round := g2.currentRound
        endedAt := now
        puzzle := g2.puzzle
        players := (avalues g2.players).map (fun p => (p.id,
          ({ name := p.name, words := p.words, roundScore := p.roundScore,
             totalScore := p.totalScore, wordCount := p.words.length } : PlayerSnapshot))) }
    let g3 := { g2 with roundResults := g2.roundResults ++ [rr] }
    if TOTAL_ROUNDS ≤ g3.currentRound then
      match finishGame g3 now with
      | (g4, some _) => (g4, some rr)
      | (g4, none) => (g4, none)
    else
      ({ g3 with gameStatus := GameStatus.betweenRounds }, some rr)

/-- Translation of `GameLogic.canStartNextRound(game)`. -/
def canStartNextRound (g : Game) : Bool :=
  if g.gameStatus ≠ GameStatus.betweenRounds then false
  else (avalues g.players).all (fun p => p.ready && p.connected)

/-- Translation of `GameLogic.setPlayerReady(game, playerId, ready)`. -/
def setPlayerReady (g : Game) (playerId : String) (ready : Bool) :
    Except String (Game × Bool) :=
  match alookup playerId g.players with
  | none => Except.error "Player not found"
  | some p =>
    let g1 := { g with players := aset playerId { p with ready := ready } g.players }
    Except.ok (g1, canStartNextRound g1)

/-- Translation of `GameLogic.canRestartGame(game)`. -/
def canRestartGame (g : Game) : Bool :=
  if g.gameStatus ≠ GameStatus.finished then false
  else decide (MIN_PLAYERS ≤ g.players.length)
    && (avalues g.players).all (fun p => p.ready && p.connected)

/-- Translation of `GameLogic.restartGame(game)`.  The fresh puzzle that
`wordData.getRandomPuzzle()` would return is an explicit argument. -/
def restartGame (g : Game) (newPuzzle : Puzzle) : Except String Game :=
  if g.gameStatus ≠ GameStatus.finished then
    Except.error "Can only restart a finished game"
  else
    Except.ok { g with
      puzzle := newPuzzle
      puzzles := [newPuzzle]
      currentRound := 0
      gameStatus := GameStatus.waiting
      roundStatus := RoundStatus.waiting
      roundStartTime := none
      roundEndTime := none
      roundResults := []
      finalResults := none
      players := g.players.map (fun kp : String × Player => (kp.1,
        { kp.2 with words := [], roundScore := 0, totalScore := 0,
                    ready := false, hasSubmittedResults := false })) }

end GameLogic

/-- Registry state of `RoomManager`: the `rooms` map (room code → game) and
the `playerRooms` map (player id → room code).  Timer handles
(`roomTimers`) hold no game state and are not modelled. -/
structure RoomManager where
  rooms : List (String × Game)
  playerRooms : List (String × String)
deriving DecidableEq

namespace RoomManager

/-- Constant `this.MAX_PLAYERS` of `RoomManager`. -/
def MAX_PLAYERS : Nat := 8

/-- Loop body of `RoomManager.generateRoomCode`: the do-while that draws
codes until one misses the `rooms` map or `attempts` reaches 100.  `gen i`
is the number `Math.floor(1000 + Math.random() * 9000)` drawn on attempt
`i`; `fuel` counts the iterations still allowed by the loop guard
`attempts < maxAttempts`, so the initial call uses `fuel = 99`: when fuel
runs out one last code is drawn and the loop exits with `attempts = 100`
regardless of whether that code collides. -/
def genLoop (rooms : List (String × Game)) (gen : Nat → Nat) :
    Nat → Nat → String × Nat
  | attempts, 0 => (toString (gen attempts), attempts + 1)
  | attempts, fuel + 1 =>
    let code := toString (gen attempts)
    if (alookup code rooms).isSome then genLoop rooms gen (attempts + 1) fuel
    else (code, attempts + 1)

/-- Translation of `RoomManager.generateRoomCode()`, with the stream of random draws made
explicit. -/
def generateRoomCode (rooms : List (String × Game)) (gen : Nat → Nat) :
    Except String String :=
  let r := genLoop rooms gen 0 99
  if 100 ≤ r.2 then Except.error "Unable to generate unique room code"
  else Except.ok r.1

/-- Acknowledgement shape of `rejoinRoom` (the `game` payload a real
acknowledgement carries is derived state and omitted). -/
structure RejoinInfo where
  roomCode : String
  playerCount : Nat
  rejoined : Bool
deriving DecidableEq

/-- Translation of `RoomManager.rejoinRoom(roomCode, playerId, playerName)`.  The JS guard
`if (playerName)` treats a missing or empty name as falsy. -/
def rejoinRoom (m : RoomManager) (roomCode playerId : String)
    (playerName : Option String) : Except String (RoomManager × RejoinInfo) :=
  match alookup roomCode m.rooms with
  | none => Except.error "Room not found"
  | some g =>
    match alookup playerId g.players with
    | none => Except.error "Player not found in room"
    | some p =>
      let p1 := { p with connected := true }
      let p2 := match playerName with
                | some nm => if nm = "" then p1 else { p1 with name := nm }
                | none => p1
      let g' := { g with players := aset playerId p2 g.players }
      Except.ok ({ m with rooms := aset roomCode g' m.rooms },
        { roomCode := roomCode, playerCount := g'.players.length, rejoined := true })

/-- Return shape of `leaveRoom`. -/
structure LeaveInfo where
  roomCode : String
  remainingPlayers : Nat
deriving DecidableEq

/-- Translation of `RoomManager.leaveRoom(playerId)`: marks the player disconnected and
removes the `playerId → roomCode` mapping.  The cleanup scheduling when no
players remain connected is a timer side effect and is not modelled. -/
def leaveRoom (m : RoomManager) (playerId : String) :
    RoomManager × Option LeaveInfo :=
  match alookup playerId m.playerRooms with
  | none => (m, none)
  | some roomCode =>
    match alookup roomCode m.rooms with
    | none => ({ m with playerRooms := aerase playerId m.playerRooms }, none)
    | some g =>
      let g' := match alookup playerId g.players with
                | some p =>
                  { g with players := aset playerId { p with connected := false } g.players }
                | none => g
      let m1 := { m with rooms := aset roomCode g' m.rooms,
                         playerRooms := aerase playerId m.playerRooms }
      let remaining := ((avalues g'.players).filter (fun p => p.connected)).length
      (m1, some { roomCode := roomCode, remainingPlayers := remaining })

/-- Translation of `RoomManager.getPlayerRoom(playerId)` (JS returns `null` when absent). -/
def getPlayerRoom (m : RoomManager) (playerId : String) : Option String :=
  alookup playerId m.playerRooms

end RoomManager

/-- Decision and effect of the `submit-round-results` socket handler after
the room has been resolved: process the submission, then end the round when
every player record has `hasSubmittedResults === true` and the round is
still active.  The returned flag records whether `endRound` was invoked
(the broadcasts and timer clearing are side effects outside the game
state). -/
def submitRoundResultsStep (g : Game) (playerId : String) (results : Submission)
    (now : Nat) : Except String (Game × Bool) :=
  match GameLogic.processRoundResults g playerId results now with
  | Except.error e => Except.error e
  | Except.ok (g1, _ack) =>
    let playersWithResults := (avalues g1.players).filter
      (fun p => p.hasSubmittedResults)
    let totalPlayers := g1.players.length
    if playersWithResults.length = totalPlayers ∧ g1.roundStatus = RoundStatus.active then
      Except.ok ((GameLogic.endRound g1 now).1, true)
    else
      Except.ok (g1, false)

/-- One operation of the game state machine, as invoked on a `Game` by the
server layer; puzzle draws and timestamps are explicit data. -/
inductive GameOp where
  | addPlayer (playerId playerName : String) (t : Nat)
  | startRound (puzzle : Puzzle) (t : Nat)
  | processRoundResults (playerId : String) (results : Submission) (t : Nat)
  | endRound (t : Nat)
  | finishGame (t : Nat)
  | setPlayerReady (playerId : String) (ready : Bool)
  | restartGame (puzzle : Puzzle)
deriving DecidableEq

/-- Apply one state-machine operation; a thrown error leaves the game as the
source leaves it (all guards in the source check before mutating). -/
def applyOp (g : Game) : GameOp → Game
  | GameOp.addPlayer pid name t =>
    match GameLogic.addPlayer g pid name t with
    | Except.ok (g', _) => g'
    | Except.error _ => g
  | GameOp.startRound pz t =>
    match GameLogic.startRound g pz t with
    | Except.ok (g', _) => g'
    | Except.error _ => g
  | GameOp.processRoundResults pid res t =>
    match GameLogic.processRoundResults g pid res t with
    | Except.ok (g', _) => g'
    | Except.error _ => g
  | GameOp.endRound t => (GameLogic.endRound g t).1
  | GameOp.finishGame t => (GameLogic.finishGame g t).1
  | GameOp.setPlayerReady pid r =>
    match GameLogic.setPlayerReady g pid r with
    | Except.ok (g', _) => g'
    | Except.error _ => g
  | GameOp.restartGame pz =>
    match GameLogic.restartGame g pz with
    | Except.ok g' => g'
    | Except.error _ => g

/-- Run a sequence of state-machine operations. -/
def runOps (g : Game) (ops : List GameOp) : Game :=
  ops.foldl applyOp g

/-- One lobby `addPlayer` application (id, name, join time); a thrown error
leaves the game unchanged. -/
def addStep (g : Game) (a : String × String × Nat) : Game :=
  match GameLogic.addPlayer g a.1 a.2.1 a.2.2 with
  | Except.ok (g', _) => g'
  | Except.error _ => g

/-- Lobby setup: create the game and add the initial players. -/
def setupGame (rc : String) (pz : Puzzle) (t0 : Nat)
    (adds : List (String × String × Nat)) : Game :=
  adds.foldl addStep (GameLogic.createGame rc pz t0)

/-- One `startRound` application; a thrown error leaves the game unchanged. -/
def startStep (g : Game) (pz : Puzzle) (t : Nat) : Game :=
  match GameLogic.startRound g pz t with
  | Except.ok (g', _) => g'
  | Except.error _ => g

/-- One client submission via `processRoundResults` (player id, payload,
time); a thrown error leaves the game unchanged. -/
def submitStep (g : Game) (s : String × Submission × Nat) : Game :=
  match GameLogic.processRoundResults g s.1 s.2.1 s.2.2 with
  | Except.ok (g', _) => g'
  | Except.error _ => g

/-- Script of one played round: the round's puzzle and start time, the
client submissions processed during it, and the end time. -/
structure RoundScript where
  puzzle : Puzzle
  startT : Nat
  subs : List (String × Submission × Nat)
  endT : Nat

/-- Play one round: `startRound`, the submissions via `processRoundResults`,
then `endRound`. -/
def playRound (g : Game) (r : RoundScript) : Game :=
  (GameLogic.endRound (r.subs.foldl submitStep (startStep g r.puzzle r.startT)) r.endT).1

/-- Play a whole game as a sequence of round scripts. -/
def playGame (g : Game) (rounds : List RoundScript) : Game :=
  rounds.foldl playRound g

/-- Sum of a player's `roundScore` snapshots recorded in `roundResults`
(0 for a round that records no snapshot for the player). -/
def sumRoundScores (k : String) (rrs : List RoundResult) : Int :=
  rrs.foldl
    (fun s rr => s + (((alookup k rr.players).map PlayerSnapshot.roundScore).getD 0))
    0

/-- Sorted in descending `totalScore` order. -/
def SortedDesc (l : List ScoreEntry) : Prop :=
  List.Sorted GameLogic.scoreGE l

/-! Helper lemmas about the association-list operations. -/

theorem alookup_aset_self {α : Type} (k : String) (v : α) (l : List (String × α)) :
    alookup k (aset k v l) = some v := by
  induction l with
  | nil => simp [aset, alookup]
  | cons kp l ih =>
    by_cases h : kp.1 = k
    · simp [aset, alookup, h]
    · simp [aset, alookup, h, ih]

theorem alookup_mem {α : Type} {k : String} {v : α} {l : List (String × α)}
    (h : alookup k l = some v) : (k, v) ∈ l := by
  induction l with
  | nil => simp [alookup] at h
  | cons kp l ih =>
    obtain ⟨a, b⟩ := kp
    by_cases hk : a = k
    · simp only [alookup, if_pos hk] at h
      subst hk
      cases h
      exact List.mem_cons_self _ _
    · simp only [alookup, if_neg hk] at h
      exact List.mem_cons_of_mem _ (ih h)

theorem alookup_eq_none_iff {α : Type} {k : String} {l : List (String × α)} :
    alookup k l = none ↔ k ∉ l.map Prod.fst := by
  induction l with
  | nil => simp [alookup]
  | cons kp l ih =>
    by_cases hk : kp.1 = k
    · simp [alookup, hk]
    · simp [alookup, hk, ih, Ne.symm hk]

theorem mem_aset {α : Type} {k : String} {v : α} {l : List (String × α)}
    {kp : String × α} (h : kp ∈ aset k v l) : kp = (k, v) ∨ kp ∈ l := by
  induction l with
  | nil => simpa [aset] using h
  | cons kq l ih =>
    by_cases hk : kq.1 = k
    · simp only [aset, if_pos hk, List.mem_cons] at h
      rcases h with h | h
      · exact Or.inl h
      · exact Or.inr (List.mem_cons_of_mem _ h)
    · simp only [aset, if_neg hk, List.mem_cons] at h
      rcases h with h | h
      · exact Or.inr (h ▸ List.mem_cons_self kq l)
      · rcases ih h with h' | h'
        · exact Or.inl h'
        · exact Or.inr (List.mem_cons_of_mem _ h')

theorem aset_keys_of_some {α : Type} {k : String} {l : List (String × α)}
    (h : (alookup k l).isSome) (v : α) :
    (aset k v l).map Prod.fst = l.map Prod.fst := by
  induction l with
  | nil => simp [alookup] at h
  | cons kp l ih =>
    by_cases hk : kp.1 = k
    · simp [aset, hk]
    · simp only [alookup, if_neg hk] at h
      simp [aset, hk, ih h]

theorem aset_keys_of_none {α : Type} {k : String} {l : List (String × α)}
    (h : alookup k l = none) (v : α) :
    (aset k v l).map Prod.fst = l.map Prod.fst ++ [k] := by
  induction l with
  | nil => simp [aset]
  | cons kp l ih =>
    by_cases hk : kp.1 = k
    · simp [alookup, hk] at h
    · simp only [alookup, if_neg hk] at h
      simp [aset, hk, ih h]

theorem aset_length_of_some {α : Type} {k : String} {l : List (String × α)}
    (h : (alookup k l).isSome) (v : α) : (aset k v l).length = l.length := by
  have := aset_keys_of_some h v
  have h1 : ((aset k v l).map Prod.fst).length = (l.map Prod.fst).length := by rw [this]
  simpa using h1

theorem map_fst_map_snd {α β : Type} (f : α → β) (l : List (String × α)) :
    (l.map (fun kp => (kp.1, f kp.2))).map Prod.fst = l.map Prod.fst := by
  induction l with
  | nil => rfl
  | cons kp l ih => simp [ih]

theorem alookup_map_snd {α β : Type} (k : String) (f : α → β) (l : List (String × α)) :
    alookup k (l.map (fun kp => (kp.1, f kp.2))) = (alookup k l).map f := by
  induction l with
  | nil => rfl
  | cons kp l ih =>
    by_cases hk : kp.1 = k
    · simp [alookup, hk]
    · simp [alookup, hk, ih]

theorem alookup_keyed_by_id {β : Type} (k : String) (f : Player → β)
    {l : List (String × Player)} (hid : ∀ kp ∈ l, (kp : String × Player).2.id = kp.1) :
    alookup k ((avalues l).map (fun p => (p.id, f p))) = (alookup k l).map f := by
  induction l with
  | nil => rfl
  | cons kp l ih =>
    have hhead : kp.2.id = kp.1 := hid kp (List.mem_cons_self kp l)
    have htail : ∀ kq ∈ l, (kq : String × Player).2.id = kq.1 :=
      fun kq hq => hid kq (List.mem_cons_of_mem _ hq)
    by_cases hk : kp.1 = k
    · simp [avalues, alookup, hhead, hk]
    · simp only [avalues, List.map_cons, alookup, hhead, if_neg hk]
      exact ih htail

theorem alookup_of_mem_nodup {α : Type} {l : List (String × α)}
    (hn : (l.map Prod.fst).Nodup) {kp : String × α} (h : kp ∈ l) :
    alookup kp.1 l = some kp.2 := by
  induction l with
  | nil => simp at h
  | cons kq l ih =>
    rcases List.mem_cons.mp h with h | h
    · subst h
      simp [alookup]
    · have hne : kq.1 ≠ kp.1 := by
        intro hEq
        have : kp.1 ∈ l.map Prod.fst := List.mem_map_of_mem Prod.fst h
        rw [← hEq] at this
        exact (List.nodup_cons.mp hn).1 this
      simp only [alookup, if_neg hne]
      exact ih (List.nodup_cons.mp hn).2 h

theorem length_filter_eq_iff {α : Type} (p : α → Bool) (l : List α) :
    (l.filter p).length = l.length ↔ ∀ a ∈ l, p a = true := by
  induction l with
  | nil => simp
  | cons a l ih =>
    by_cases hpa : p a = true
    · simp [List.filter_cons, hpa, ih]
    · have hfc : List.filter p (a :: l) = List.filter p l := by
        simp [List.filter_cons, hpa]
      rw [hfc, List.length_cons]
      constructor
      · intro h
        exfalso
        have hle := List.length_filter_le p l
        omega
      · intro h
        exact absurd (h a (List.mem_cons_self a l)) hpa

instance {ε α : Type} [DecidableEq ε] [DecidableEq α] : DecidableEq (Except ε α) :=
  fun x y =>
    match x, y with
    | Except.error a, Except.error b =>
      if h : a = b then isTrue (by rw [h])
      else isFalse (by intro hEq; cases hEq; exact h rfl)
    | Except.error _, Except.ok _ => isFalse (by intro hEq; cases hEq)
    | Except.ok _, Except.error _ => isFalse (by intro hEq; cases hEq)
    | Except.ok a, Except.ok b =>
      if h : a = b then isTrue (by rw [h])
      else isFalse (by intro hEq; cases hEq; exact h rfl)

/-! Concrete fixtures used by witnesses and counterexamples. -/

/-- Example puzzle (the spec's §8 scenario puzzle). -/
def pzEx : Puzzle :=
  { centerLetter := 'e', outerLetters := ['a', 'l', 'o', 'w', 'n', 'c'],
    validWords := ["allowance", "acne"], pangrams := ["allowance"] }

/-- Example connected player. -/
def pAEx : Player :=
  { id := "A", name := "Alice", words := [], roundScore := 0, totalScore := 0,
    ready := false, connected := true, hasSubmittedResults := false, joinedAt := 0 }

/-- Example disconnected player. -/
def pBEx : Player :=
  { pAEx with id := "B", name := "Bob", connected := false }

/-- Example game in the middle of round 1 with one connected and one
disconnected player, neither having submitted yet. -/
def gameEx : Game :=
  { GameLogic.createGame "4821" pzEx 0 with
    players := [("A", pAEx), ("B", pBEx)]
    gameStatus := GameStatus.playing
    roundStatus := RoundStatus.active
    currentRound := 1 }

/-- Example registry holding `gameEx` with no player→room mappings (as after
both players left). -/
def mgrEx : RoomManager :=
  { rooms := [("4821", gameEx)], playerRooms := [] }

/-- C9: a successful `rejoinRoom` restores `connected = true` (and the name
when a nonempty one is given) on the member's player record, but never
writes the `playerId → roomCode` mapping back into `playerRooms`, so
`getPlayerRoom` still answers `none` for a player whose mapping `leaveRoom`
removed. -/
theorem rejoinRoom_leaves_playerRooms (m : RoomManager) (c pid : String)
    (nm : Option String) (g : Game) (p : Player)
    (hg : alookup c m.rooms = some g)
    (hp : alookup pid g.players = some p)
    (hmap : alookup pid m.playerRooms = none) :
    ∃ m' info, RoomManager.rejoinRoom m c pid nm = Except.ok (m', info) ∧
      m'.playerRooms = m.playerRooms ∧
      RoomManager.getPlayerRoom m' pid = none ∧
      ∃ g' p', alookup c m'.rooms = some g' ∧ alookup pid g'.players = some p' ∧
        p'.connected = true ∧
        ∀ n, nm = some n → n ≠ "" → p'.name = n := by
  unfold RoomManager.rejoinRoom
  simp only [hg, hp]
  refine ⟨_, _, rfl, rfl, hmap, _, _, alookup_aset_self c _ m.rooms,
    alookup_aset_self pid _ g.players, ?_, ?_⟩
  · cases nm with
    | none => rfl
    | some n =>
      by_cases hn : n = ""
      · simp [hn]
      · simp [hn]
  · intro n hn hne
    cases hn
    simp [hne]

/-- C9 witness: concrete registry where player `"A"` is a member of room
`"4821"` but has no `playerRooms` mapping. -/
theorem rejoinRoom_leaves_playerRooms_witness :
    alookup "4821" mgrEx.rooms = some gameEx ∧
    alookup "A" gameEx.players = some pAEx ∧
    alookup "A" mgrEx.playerRooms = none ∧
    (∃ m' info, RoomManager.rejoinRoom mgrEx "4821" "A" (some "Al") = Except.ok (m', info) ∧
      m'.playerRooms = mgrEx.playerRooms ∧
      RoomManager.getPlayerRoom m' "A" = none ∧
      ∃ g' p', alookup "4821" m'.rooms = some g' ∧ alookup "A" g'.players = some p' ∧
        p'.connected = true ∧
        ∀ n, (some "Al" : Option String) = some n → n ≠ "" → p'.name = n) :=
  ⟨by decide, by decide, by decide,
    rejoinRoom_leaves_playerRooms mgrEx "4821" "A" (some "Al") gameEx pAEx
      (by decide) (by decide) (by decide)⟩

/-- C10: on a game with fewer than 8 player entries, `addPlayer` with an id
that is already present succeeds and overwrites the existing record with a
fresh one (empty words, zero scores, not ready, connected), keeping the
player count unchanged (in-place replacement, not an append). -/
theorem addPlayer_duplicate_replaces (g : Game) (pid nm : String) (t : Nat)
    (p : Player)
    (hlen : g.players.length < 8) (hp : alookup pid g.players = some p) :
    ∃ g' q, GameLogic.addPlayer g pid nm t = Except.ok (g', q) ∧
      alookup pid g'.players = some q ∧
      q.id = pid ∧ q.words = [] ∧ q.roundScore = 0 ∧ q.totalScore = 0 ∧
      q.ready = false ∧ q.connected = true ∧
      g'.players.length = g.players.length := by
  have hnot : ¬ GameLogic.MAX_PLAYERS ≤ g.players.length := by
    simp only [GameLogic.MAX_PLAYERS]
    omega
  unfold GameLogic.addPlayer
  rw [if_neg hnot]
  refine ⟨_, _, rfl, alookup_aset_self pid _ g.players, rfl, rfl, rfl, rfl, rfl, rfl, ?_⟩
  exact aset_length_of_some (by simp [hp]) _

/-- C10 witness: re-adding id `"A"` to `gameEx` (2 of 8 slots used). -/
theorem addPlayer_duplicate_replaces_witness :
    gameEx.players.length < 8 ∧
    alookup "A" gameEx.players = some pAEx ∧
    (∃ g' q, GameLogic.addPlayer gameEx "A" "Fresh" 50 = Except.ok (g', q) ∧
      alookup "A" g'.players = some q ∧
      q.id = "A" ∧ q.words = [] ∧ q.roundScore = 0 ∧ q.totalScore = 0 ∧
      q.ready = false ∧ q.connected = true ∧
      g'.players.length = gameEx.players.length) :=
  ⟨by decide, by decide,
    addPlayer_duplicate_replaces gameEx "A" "Fresh" 50 pAEx (by decide) (by decide)⟩

/-- C7: from `gameStatus = finished`, `restartGame` succeeds and resets
`currentRound`, the two statuses, `roundResults` and `finalResults` to the
waiting baseline, and pointwise resets every player's `totalScore`,
`roundScore`, `words` and `ready` while keeping the key, `id`, `name` and
`connected` flag; from any other `gameStatus` it fails with the source's
error message and returns no game. -/
theorem restartGame_frame (g : Game) (pz : Puzzle) :
    (g.gameStatus = GameStatus.finished →
      ∃ g', GameLogic.restartGame g pz = Except.ok g' ∧
        g'.currentRound = 0 ∧ g'.gameStatus = GameStatus.waiting ∧
        g'.roundStatus = RoundStatus.waiting ∧ g'.roundResults = [] ∧
        g'.finalResults = none ∧
        List.Forall₂
          (fun kp kp' : String × Player =>
            kp'.1 = kp.1 ∧ kp'.2.id = kp.2.id ∧ kp'.2.name = kp.2.name ∧
            kp'.2.connected = kp.2.connected ∧ kp'.2.totalScore = 0 ∧
            kp'.2.roundScore = 0 ∧ kp'.2.words = [] ∧ kp'.2.ready = false)
          g.players g'.players) ∧
    (g.gameStatus ≠ GameStatus.finished →
      GameLogic.restartGame g pz = Except.error "Can only restart a finished game") := by
  constructor
  · intro hfin
    unfold GameLogic.restartGame
    rw [if_neg (by simp [hfin])]
    refine ⟨_, rfl, rfl, rfl, rfl, rfl, rfl, ?_⟩
    rw [List.forall₂_map_right_iff]
    rw [List.forall₂_same]
    intro kp _
    exact ⟨rfl, rfl, rfl, rfl, rfl, rfl, rfl, rfl⟩
  · intro hnot
    unfold GameLogic.restartGame
    rw [if_pos hnot]

/-- C7 witness: restarting a finished copy of `gameEx` succeeds with the
reset fields, and restarting `gameEx` itself (status `playing`) fails. -/
theorem restartGame_frame_witness :
    (∃ g', GameLogic.restartGame { gameEx with gameStatus := GameStatus.finished } pzEx
        = Except.ok g' ∧
      g'.currentRound = 0 ∧ g'.gameStatus = GameStatus.waiting ∧
      g'.roundStatus = RoundStatus.waiting ∧ g'.roundResults = [] ∧
      g'.finalResults = none ∧
      List.Forall₂
        (fun kp kp' : String × Player =>
          kp'.1 = kp.1 ∧ kp'.2.id = kp.2.id ∧ kp'.2.name = kp.2.name ∧
          kp'.2.connected = kp.2.connected ∧ kp'.2.totalScore = 0 ∧
          kp'.2.roundScore = 0 ∧ kp'.2.words = [] ∧ kp'.2.ready = false)
        ({ gameEx with gameStatus := GameStatus.finished } : Game).players g'.players) ∧
    GameLogic.restartGame gameEx pzEx = Except.error "Can only restart a finished game" :=
  ⟨(restartGame_frame { gameEx with gameStatus := GameStatus.finished } pzEx).1 rfl,
   (restartGame_frame gameEx pzEx).2 (by decide)⟩

/-- Example submission with no words (3 claimed points). -/
def subEx : Submission := { words := [], totalScore := 3 }

/-- State of `gameEx` after player `"A"` submits `subEx`. -/
def gameExAfterA : Game :=
  { gameEx with players :=
      [("A", { pAEx with roundScore := 3, hasSubmittedResults := true }), ("B", pBEx)] }

/-- C1 counterexample: in `gameEx`, player `"B"` is disconnected and has not
submitted; after the connected player `"A"` submits, every connected player
has submitted and the round is active, yet the handler does not invoke
`endRound` (flag `false`) because the non-connected player's missing
submission is counted too. -/
theorem submit_handler_connected_cex :
    submitRoundResultsStep gameEx "A" subEx 5 = Except.ok (gameExAfterA, false) ∧
    (∀ q ∈ avalues gameExAfterA.players, q.connected = true → q.hasSubmittedResults = true) ∧
    gameExAfterA.roundStatus = RoundStatus.active := by
  decide

/-- C1 (amended): after a successful `processRoundResults`, the
`submit-round-results` handler invokes `endRound` iff every player record of
the game — connected or not — has `hasSubmittedResults = true` and the round
is still `active`; otherwise it returns the game unchanged, leaving the
round active for the timer-expiry path to end. -/
theorem submit_handler_ends_iff_all_players (g : Game) (pid : String)
    (res : Submission) (t : Nat) (g1 : Game) (ack : SubmitResult)
    (h : GameLogic.processRoundResults g pid res t = Except.ok (g1, ack)) :
    ∃ g2 b, submitRoundResultsStep g pid res t = Except.ok (g2, b) ∧
      (b = true ↔ ((∀ q ∈ avalues g1.players, q.hasSubmittedResults = true) ∧
        g1.roundStatus = RoundStatus.active)) ∧
      (b = false → g2 = g1) ∧
      (b = true → g2 = (GameLogic.endRound g1 t).1) := by
  unfold submitRoundResultsStep
  simp only [h]
  by_cases hc : ((avalues g1.players).filter (fun p => p.hasSubmittedResults)).length
      = g1.players.length ∧ g1.roundStatus = RoundStatus.active
  · rw [if_pos hc]
    refine ⟨_, true, rfl, ?_, ?_, ?_⟩
    · have hall : ∀ q ∈ avalues g1.players, q.hasSubmittedResults = true := by
        refine (length_filter_eq_iff _ _).mp ?_
        rw [hc.1]
        simp [avalues]
      exact iff_of_true rfl ⟨hall, hc.2⟩
    · intro hb
      cases hb
    · intro _
      rfl
  · rw [if_neg hc]
    refine ⟨_, false, rfl, ?_, ?_, ?_⟩
    · refine iff_of_false (by simp) ?_
      rintro ⟨hall, hact⟩
      refine hc ⟨?_, hact⟩
      have hfl := (length_filter_eq_iff (fun p : Player => p.hasSubmittedResults)
        (avalues g1.players)).mpr hall
      rw [hfl]
      simp [avalues]
    · intro _
      rfl
    · intro hb
      cases hb

/-- C1 (amended) witness: in `gameEx` a single submission does not end the
round (player `"B"` has not submitted). -/
theorem submit_handler_ends_iff_all_players_witness :
    GameLogic.processRoundResults gameEx "A" subEx 5
      = Except.ok (gameExAfterA, { wordsAccepted := 0, roundScore := 3 }) ∧
    (∃ g2 b, submitRoundResultsStep gameEx "A" subEx 5 = Except.ok (g2, b) ∧
      (b = true ↔ ((∀ q ∈ avalues gameExAfterA.players, q.hasSubmittedResults = true) ∧
        gameExAfterA.roundStatus = RoundStatus.active)) ∧
      (b = false → g2 = gameExAfterA) ∧
      (b = true → g2 = (GameLogic.endRound gameExAfterA 5).1)) :=
  ⟨by decide,
   submit_handler_ends_iff_all_players gameEx "A" subEx 5 gameExAfterA
     { wordsAccepted := 0, roundScore := 3 } (by decide)⟩

/-! Facts about `finishGame` and `endRound` used for idempotence. -/

theorem sortScoresDesc_perm (l : List ScoreEntry) :
    (GameLogic.sortScoresDesc l).Perm l :=
  List.perm_insertionSort _ l

theorem sortScoresDesc_sorted (l : List ScoreEntry) :
    SortedDesc (GameLogic.sortScoresDesc l) :=
  List.sorted_insertionSort _ l

theorem scoreEntries_length (g : Game) :
    (GameLogic.scoreEntries g).length = g.players.length := by
  simp [GameLogic.scoreEntries, avalues]

theorem finishGame_fields (g : Game) (t : Nat) :
    (GameLogic.finishGame g t).1.players = g.players ∧
    (GameLogic.finishGame g t).1.roundStatus = g.roundStatus ∧
    (GameLogic.finishGame g t).1.currentRound = g.currentRound ∧
    (GameLogic.finishGame g t).1.roundResults = g.roundResults ∧
    (GameLogic.finishGame g t).1.gameStatus = GameStatus.finished := by
  unfold GameLogic.finishGame
  dsimp only
  split <;> exact ⟨rfl, rfl, rfl, rfl, rfl⟩

theorem finishGame_isSome (g : Game) (t : Nat) (h : g.players ≠ []) :
    ((GameLogic.finishGame g t).2).isSome = true := by
  unfold GameLogic.finishGame
  dsimp only
  rcases hs : GameLogic.sortScoresDesc
      (GameLogic.scoreEntries { g with gameStatus := GameStatus.finished })
    with _ | ⟨w, rest⟩
  · exfalso
    have hlen := (sortScoresDesc_perm
      (GameLogic.scoreEntries { g with gameStatus := GameStatus.finished })).length_eq
    rw [hs, scoreEntries_length] at hlen
    exact h (List.length_eq_zero.mp hlen.symm)
  · rfl

theorem finishGame_ne_none (g : Game) (t : Nat) (h : g.players ≠ []) (g4 : Game) :
    GameLogic.finishGame g t ≠ (g4, none) := by
  intro hEq
  have hsome := finishGame_isSome g t h
  rw [hEq] at hsome
  cases hsome

theorem finishGame_pair_fields (g : Game) (t : Nat) (g4 : Game)
    (fr : Option FinalResults) (h : GameLogic.finishGame g t = (g4, fr)) :
    g4.players = g.players ∧ g4.roundStatus = g.roundStatus ∧
    g4.currentRound = g.currentRound ∧ g4.roundResults = g.roundResults ∧
    g4.gameStatus = GameStatus.finished := by
  have hf := finishGame_fields g t
  rw [h] at hf
  exact hf

theorem find?_append_singleton {α : Type} (p : α → Bool) (l : List α) (a : α)
    (hl : ∀ x ∈ l, p x = false) (ha : p a = true) :
    List.find? p (l ++ [a]) = some a := by
  induction l with
  | nil => simp [List.find?_cons_of_pos, ha]
  | cons x l ih =>
    have hx := hl x (List.mem_cons_self x l)
    rw [List.cons_append, List.find?_cons_of_neg _ (by simp [hx])]
    exact ih (fun y hy => hl y (List.mem_cons_of_mem _ hy))

theorem endRound_not_ended (g : Game) (t : Nat)
    (h1 : g.roundStatus ≠ RoundStatus.ended)
    (h3 : g.players ≠ []) :
    ∃ G rr, GameLogic.endRound g t = (G, some rr) ∧
      G.roundStatus = RoundStatus.ended ∧
      G.currentRound = g.currentRound ∧
      G.roundResults = g.roundResults ++ [rr] ∧
      rr.round = g.currentRound := by
  unfold GameLogic.endRound
  rw [if_neg h1]
  dsimp only
  split
  · split
    next g4 x heq =>
      have hf := finishGame_pair_fields _ t _ _ heq
      exact ⟨g4, _, rfl, hf.2.1, hf.2.2.1, hf.2.2.2.1, rfl⟩
    next g4 heq =>
      exact absurd heq
        (finishGame_ne_none _ t (by simpa [List.map_eq_nil_iff] using h3) g4)
  · exact ⟨_, _, rfl, rfl, rfl, rfl, rfl⟩

/-- C2: `endRound` is idempotent: starting from a game whose round is not
yet ended (so the first call is the one that produces the stored
`RoundResult`), a second call returns the identical game/result pair — the
stored result for `currentRound` is returned again, `roundResults` gains no
second entry, and no `roundScore` is added into `totalScore` twice.  The
hypotheses say the game has at least one player (with none, the source's
`finishGame` throws a `TypeError` mid-way) and that no earlier stored round
result reuses the current round number, which holds for every game the
state machine produces. -/
theorem endRound_idempotent (g : Game) (t1 t2 : Nat)
    (h1 : g.roundStatus ≠ RoundStatus.ended)
    (h2 : ∀ r ∈ g.roundResults, r.round ≠ g.currentRound)
    (h3 : g.players ≠ []) :
    GameLogic.endRound (GameLogic.endRound g t1).1 t2 = GameLogic.endRound g t1 := by
  obtain ⟨G, rr, hEq, hstat, hcr, hrrs, hround⟩ := endRound_not_ended g t1 h1 h3
  rw [hEq]
  dsimp only
  unfold GameLogic.endRound
  rw [if_pos hstat]
  unfold GameLogic.getRoundResults
  rw [hrrs, hcr]
  rw [find?_append_singleton _ _ _
    (fun x hx => by simp [h2 x hx]) (by simp [hround])]

/-- C2 witness: ending round 1 of `gameEx` twice. -/
theorem endRound_idempotent_witness :
    (gameEx.roundStatus ≠ RoundStatus.ended ∧
     (∀ r ∈ gameEx.roundResults, r.round ≠ gameEx.currentRound) ∧
     gameEx.players ≠ []) ∧
    GameLogic.endRound (GameLogic.endRound gameEx 7).1 9 = GameLogic.endRound gameEx 7 :=
  ⟨⟨by decide, by decide, by decide⟩,
   endRound_idempotent gameEx 7 9 (by decide) (by decide) (by decide)⟩

/-! Room-code generation. -/

theorem genLoop_zero (rooms : List (String × Game)) (gen : Nat → Nat) (a : Nat) :
    RoomManager.genLoop rooms gen a 0 = (toString (gen a), a + 1) := rfl

theorem genLoop_succ (rooms : List (String × Game)) (gen : Nat → Nat) (a f : Nat) :
    RoomManager.genLoop rooms gen a (f + 1) =
      if (alookup (toString (gen a)) rooms).isSome then
        RoomManager.genLoop rooms gen (a + 1) f
      else (toString (gen a), a + 1) := rfl

theorem genLoop_free (rooms : List (String × Game)) (gen : Nat → Nat) :
    ∀ fuel a, (∃ i, a ≤ i ∧ i < a + fuel ∧ alookup (toString (gen i)) rooms = none) →
      ∃ j, a ≤ j ∧ j < a + fuel ∧
        RoomManager.genLoop rooms gen a fuel = (toString (gen j), j + 1) ∧
        alookup (toString (gen j)) rooms = none := by
  intro fuel
  induction fuel with
  | zero =>
    rintro a ⟨i, hai, hia, -⟩
    omega
  | succ f ih =>
    rintro a ⟨i, hai, hia, hfree⟩
    by_cases hcol : (alookup (toString (gen a)) rooms).isSome = true
    · have hne : i ≠ a := by
        intro hEq
        rw [hEq] at hfree
        rw [hfree] at hcol
        cases hcol
      obtain ⟨j, h1, h2, h3, h4⟩ := ih (a + 1) ⟨i, by omega, by omega, hfree⟩
      refine ⟨j, by omega, by omega, ?_, h4⟩
      rw [genLoop_succ, if_pos hcol]
      exact h3
    · have hfree' : alookup (toString (gen a)) rooms = none := by
        cases hA : alookup (toString (gen a)) rooms
        · rfl
        · rw [hA] at hcol
          simp at hcol
      refine ⟨a, le_refl a, by omega, ?_, hfree'⟩
      rw [genLoop_succ, if_neg hcol]

/-- C4 counterexample: one live room `"1000"`, and a draw stream that
collides on each of the first 99 attempts and draws the free code `2000` on
the 100th.  One of the first 100 generated codes is free of collision, so
the claim requires the call to succeed, but the source increments `attempts`
to 100 and then throws the exhaustion error without looking at the last
code. -/
theorem generateRoomCode_100th_cex :
    RoomManager.generateRoomCode [("1000", GameLogic.createGame "1000" pzEx 0)]
        (fun i => if i < 99 then 1000 else 2000)
      = Except.error "Unable to generate unique room code" ∧
    toString ((fun i : Nat => if i < 99 then 1000 else 2000) 99) = "2000" ∧
    alookup "2000" [("1000", GameLogic.createGame "1000" pzEx 0)] = none := by
  decide

/-- C4 (amended): whenever any of the first 99 generated codes misses the
live-rooms map, `generateRoomCode` succeeds, returning a generated code that
is not a key of the map and (given the `Math.random` range) lies in
1000–9999; only when the first 99 draws all collide does it fail with the
code-generation-exhausted error — the 100th draw is made but never
returned, even when it is free. -/
theorem generateRoomCode_first99 (rooms : List (String × Game)) (gen : Nat → Nat)
    (hfree : ∃ i, i < 99 ∧ alookup (toString (gen i)) rooms = none)
    (hrange : ∀ i, 1000 ≤ gen i ∧ gen i ≤ 9999) :
    ∃ j, j < 99 ∧
      RoomManager.generateRoomCode rooms gen = Except.ok (toString (gen j)) ∧
      alookup (toString (gen j)) rooms = none ∧
      1000 ≤ gen j ∧ gen j ≤ 9999 := by
  obtain ⟨i, hi, hifree⟩ := hfree
  obtain ⟨j, h0j, hj99, hloop, hjfree⟩ :=
    genLoop_free rooms gen 99 0 ⟨i, Nat.zero_le i, by omega, hifree⟩
  refine ⟨j, by omega, ?_, hjfree, (hrange j).1, (hrange j).2⟩
  unfold RoomManager.generateRoomCode
  rw [hloop]
  dsimp only
  rw [if_neg (by omega)]

/-- Constant draw stream used by the C4 witness. -/
def genW : Nat → Nat := fun _ => 1234

/-- C4 (amended) witness: an empty registry and a stream drawing 1234. -/
theorem generateRoomCode_first99_witness :
    (∃ i, i < 99 ∧ alookup (toString (genW i)) ([] : List (String × Game)) = none) ∧
    (∀ i, 1000 ≤ genW i ∧ genW i ≤ 9999) ∧
    (∃ j, j < 99 ∧
      RoomManager.generateRoomCode [] genW = Except.ok (toString (genW j)) ∧
      alookup (toString (genW j)) ([] : List (String × Game)) = none ∧
      1000 ≤ genW j ∧ genW j ≤ 9999) :=
  ⟨⟨0, by omega, rfl⟩, fun _ => ⟨by norm_num [genW], by norm_num [genW]⟩,
   generateRoomCode_first99 [] genW ⟨0, by omega, rfl⟩
     (fun _ => ⟨by norm_num [genW], by norm_num [genW]⟩)⟩

/-! Per-operation facts about the state machine. -/

theorem applyOp_addPlayer_def (g : Game) (pid nm : String) (t : Nat) :
    applyOp g (GameOp.addPlayer pid nm t) =
      match GameLogic.addPlayer g pid nm t with
      | Except.ok (g', _) => g'
      | Except.error _ => g := rfl

theorem applyOp_processResults_def (g : Game) (pid : String) (res : Submission)
    (t : Nat) :
    applyOp g (GameOp.processRoundResults pid res t) =
      match GameLogic.processRoundResults g pid res t with
      | Except.ok (g', _) => g'
      | Except.error _ => g := rfl

theorem applyOp_setReady_def (g : Game) (pid : String) (r : Bool) :
    applyOp g (GameOp.setPlayerReady pid r) =
      match GameLogic.setPlayerReady g pid r with
      | Except.ok (g', _) => g'
      | Except.error _ => g := rfl

theorem applyOp_startRound_def (g : Game) (pz : Puzzle) (t : Nat) :
    applyOp g (GameOp.startRound pz t) =
      match GameLogic.startRound g pz t with
      | Except.ok (g', _) => g'
      | Except.error _ => g := rfl

theorem applyOp_restart_def (g : Game) (pz : Puzzle) :
    applyOp g (GameOp.restartGame pz) =
      match GameLogic.restartGame g pz with
      | Except.ok g' => g'
      | Except.error _ => g := rfl

theorem applyOp_addPlayer_fields (g : Game) (pid nm : String) (t : Nat) :
    (applyOp g (GameOp.addPlayer pid nm t)).currentRound = g.currentRound ∧
    (applyOp g (GameOp.addPlayer pid nm t)).gameStatus = g.gameStatus ∧
    (applyOp g (GameOp.addPlayer pid nm t)).roundStatus = g.roundStatus := by
  rw [applyOp_addPlayer_def]
  unfold GameLogic.addPlayer
  by_cases h : GameLogic.MAX_PLAYERS ≤ g.players.length
  · rw [if_pos h]
    exact ⟨rfl, rfl, rfl⟩
  · rw [if_neg h]
    exact ⟨rfl, rfl, rfl⟩

theorem applyOp_processResults_fields (g : Game) (pid : String) (res : Submission)
    (t : Nat) :
    (applyOp g (GameOp.processRoundResults pid res t)).currentRound = g.currentRound ∧
    (applyOp g (GameOp.processRoundResults pid res t)).gameStatus = g.gameStatus ∧
    (applyOp g (GameOp.processRoundResults pid res t)).roundStatus = g.roundStatus := by
  rw [applyOp_processResults_def]
  unfold GameLogic.processRoundResults
  cases h : alookup pid g.players with
  | none => exact ⟨rfl, rfl, rfl⟩
  | some p => exact ⟨rfl, rfl, rfl⟩

theorem applyOp_setReady_fields (g : Game) (pid : String) (r : Bool) :
    (applyOp g (GameOp.setPlayerReady pid r)).currentRound = g.currentRound ∧
    (applyOp g (GameOp.setPlayerReady pid r)).gameStatus = g.gameStatus ∧
    (applyOp g (GameOp.setPlayerReady pid r)).roundStatus = g.roundStatus := by
  rw [applyOp_setReady_def]
  unfold GameLogic.setPlayerReady
  cases h : alookup pid g.players with
  | none => exact ⟨rfl, rfl, rfl⟩
  | some p => exact ⟨rfl, rfl, rfl⟩

theorem applyOp_startRound_cases (g : Game) (pz : Puzzle) (t : Nat) :
    applyOp g (GameOp.startRound pz t) = g ∨
    ((applyOp g (GameOp.startRound pz t)).currentRound = g.currentRound + 1 ∧
     (applyOp g (GameOp.startRound pz t)).gameStatus = GameStatus.playing ∧
     (applyOp g (GameOp.startRound pz t)).roundStatus = RoundStatus.active) := by
  rw [applyOp_startRound_def]
  unfold GameLogic.startRound
  by_cases h : GameLogic.TOTAL_ROUNDS ≤ g.currentRound
  · rw [if_pos h]
    left
    rfl
  · rw [if_neg h]
    right
    dsimp only
    by_cases h2 : 1 < g.currentRound + 1
    · rw [if_pos h2]
      exact ⟨rfl, rfl, rfl⟩
    · rw [if_neg h2]
      exact ⟨rfl, rfl, rfl⟩

theorem endRound_currentRound (g : Game) (t : Nat) :
    (GameLogic.endRound g t).1.currentRound = g.currentRound := by
  unfold GameLogic.endRound
  by_cases h : g.roundStatus = RoundStatus.ended
  · rw [if_pos h]
  · rw [if_neg h]
    dsimp only
    split
    · split
      next g4 x heq =>
        exact (finishGame_pair_fields _ t _ _ heq).2.2.1
      next g4 heq =>
        exact (finishGame_pair_fields _ t _ _ heq).2.2.1
    · rfl

theorem endRound_status_cases (g : Game) (t : Nat) :
    (GameLogic.endRound g t).1 = g ∨
    (GameLogic.endRound g t).1.roundStatus = RoundStatus.ended := by
  unfold GameLogic.endRound
  by_cases h : g.roundStatus = RoundStatus.ended
  · rw [if_pos h]
    left
    rfl
  · rw [if_neg h]
    right
    dsimp only
    split
    · split
      next g4 x heq =>
        exact (finishGame_pair_fields _ t _ _ heq).2.1
      next g4 heq =>
        exact (finishGame_pair_fields _ t _ _ heq).2.1
    · rfl

theorem applyOp_restart_cases (g : Game) (pz : Puzzle) :
    applyOp g (GameOp.restartGame pz) = g ∨
    ((applyOp g (GameOp.restartGame pz)).currentRound = 0 ∧
     (applyOp g (GameOp.restartGame pz)).gameStatus = GameStatus.waiting ∧
     (applyOp g (GameOp.restartGame pz)).roundStatus = RoundStatus.waiting) := by
  rw [applyOp_restart_def]
  unfold GameLogic.restartGame
  by_cases h : g.gameStatus ≠ GameStatus.finished
  · rw [if_pos h]
    left
    rfl
  · rw [if_neg h]
    right
    exact ⟨rfl, rfl, rfl⟩

/-- Example operation sequence: a full 3-round game for players `"a"`, `"b"`
driven through the state machine (round 3's `endRound` runs `finishGame`). -/
def opsFullGame : List GameOp :=
  [GameOp.addPlayer "a" "A" 0, GameOp.addPlayer "b" "B" 0,
   GameOp.startRound pzEx 1, GameOp.endRound 2,
   GameOp.startRound pzEx 3, GameOp.endRound 4,
   GameOp.startRound pzEx 5, GameOp.endRound 6]

/-- C5 counterexample: after a completed 3-round game (`currentRound = 3`,
status `finished`), the state-machine operation `restartGame` moves
`currentRound` back to 0 — it decreases. -/
theorem currentRound_decreases_on_restart_cex :
    (runOps (GameLogic.createGame "4821" pzEx 0) opsFullGame).currentRound = 3 ∧
    (applyOp (runOps (GameLogic.createGame "4821" pzEx 0) opsFullGame)
        (GameOp.restartGame pzEx)).currentRound = 0 := by
  decide

/-- C5 (amended): every state-machine operation other than `restartGame`
leaves `currentRound` unchanged or increments it (so it never decreases);
`restartGame` either fails leaving the game untouched, or resets
`currentRound` to 0 as part of returning a finished game to the waiting
baseline. -/
theorem currentRound_monotone_except_restart (g : Game) (op : GameOp) :
    g.currentRound ≤ (applyOp g op).currentRound ∨
    ∃ pz, op = GameOp.restartGame pz ∧ (applyOp g op).currentRound = 0 := by
  cases op with
  | addPlayer pid nm t =>
    exact Or.inl (le_of_eq ((applyOp_addPlayer_fields g pid nm t).1).symm)
  | startRound pz t =>
    left
    rcases applyOp_startRound_cases g pz t with h | h
    · rw [h]
    · rw [h.1]
      omega
  | processRoundResults pid res t =>
    exact Or.inl (le_of_eq ((applyOp_processResults_fields g pid res t).1).symm)
  | endRound t =>
    left
    show g.currentRound ≤ (GameLogic.endRound g t).1.currentRound
    rw [endRound_currentRound g t]
  | finishGame t =>
    left
    show g.currentRound ≤ (GameLogic.finishGame g t).1.currentRound
    rw [(finishGame_fields g t).2.2.1]
  | setPlayerReady pid r =>
    exact Or.inl (le_of_eq ((applyOp_setReady_fields g pid r).1).symm)
  | restartGame pz =>
    rcases applyOp_restart_cases g pz with h | h
    · left
      rw [h]
    · right
      exact ⟨pz, rfl, h.1⟩

/-- Recognizer for the direct `finishGame` state-machine operation. -/
def isFinishOp : GameOp → Bool
  | GameOp.finishGame _ => true
  | _ => false

theorem not_finish_of_isFinishOp_false {op : GameOp} (h : isFinishOp op = false) :
    ∀ t, op ≠ GameOp.finishGame t := by
  intro t hEq
  subst hEq
  simp [isFinishOp] at h

theorem statusOk_applyOp (g : Game) (op : GameOp)
    (hop : ∀ t, op ≠ GameOp.finishGame t)
    (hs : g.roundStatus = RoundStatus.active → g.gameStatus = GameStatus.playing) :
    (applyOp g op).roundStatus = RoundStatus.active →
    (applyOp g op).gameStatus = GameStatus.playing := by
  cases op with
  | addPlayer pid nm t =>
    have hf := applyOp_addPlayer_fields g pid nm t
    rw [hf.2.1, hf.2.2]
    exact hs
  | startRound pz t =>
    rcases applyOp_startRound_cases g pz t with h | h
    · rw [h]
      exact hs
    · intro _
      exact h.2.1
  | processRoundResults pid res t =>
    have hf := applyOp_processResults_fields g pid res t
    rw [hf.2.1, hf.2.2]
    exact hs
  | endRound t =>
    show (GameLogic.endRound g t).1.roundStatus = RoundStatus.active →
      (GameLogic.endRound g t).1.gameStatus = GameStatus.playing
    rcases endRound_status_cases g t with h | h
    · rw [h]
      exact hs
    · intro hact
      rw [h] at hact
      cases hact
  | finishGame t => exact absurd rfl (hop t)
  | setPlayerReady pid r =>
    have hf := applyOp_setReady_fields g pid r
    rw [hf.2.1, hf.2.2]
    exact hs
  | restartGame pz =>
    rcases applyOp_restart_cases g pz with h | h
    · rw [h]
      exact hs
    · intro hact
      rw [h.2.2] at hact
      cases hact

theorem statusOk_runOps (ops : List GameOp) :
    ∀ g : Game, ops.all (fun op => !isFinishOp op) = true →
      (g.roundStatus = RoundStatus.active → g.gameStatus = GameStatus.playing) →
      ((runOps g ops).roundStatus = RoundStatus.active →
       (runOps g ops).gameStatus = GameStatus.playing) := by
  induction ops with
  | nil => exact fun g _ hs => hs
  | cons op ops ih =>
    intro g hall hs
    rw [List.all_cons, Bool.and_eq_true] at hall
    have hopf : isFinishOp op = false := by
      rcases hall.1 with h
      cases hof : isFinishOp op
      · rfl
      · rw [hof] at h
        cases h
    exact ih (applyOp g op) hall.2
      (statusOk_applyOp g op (not_finish_of_isFinishOp_false hopf) hs)

/-- Example operation sequence that ends with an active round and never
invokes `finishGame` directly. -/
def opsActive : List GameOp :=
  [GameOp.addPlayer "a" "A" 0, GameOp.addPlayer "b" "B" 0, GameOp.startRound pzEx 1]

/-- C8 counterexample: from `createGame`, the operation sequence
addPlayer, addPlayer, startRound, finishGame — all operations of the Game
State Machine named by the claim — reaches a game with
`roundStatus = active` but `gameStatus = finished`, not `playing`:
`finishGame` sets `gameStatus` without touching `roundStatus`. -/
theorem roundActive_finished_cex :
    (runOps (GameLogic.createGame "4821" pzEx 0)
        (opsActive ++ [GameOp.finishGame 2])).roundStatus = RoundStatus.active ∧
    (runOps (GameLogic.createGame "4821" pzEx 0)
        (opsActive ++ [GameOp.finishGame 2])).gameStatus = GameStatus.finished := by
  decide

/-- C8 (amended): for every game reachable from `createGame` by a sequence
of state-machine operations that never invokes `finishGame` directly (in
the source, `finishGame` only runs from inside `endRound`),
`roundStatus = active` implies `gameStatus = playing`. -/
theorem roundActive_imp_playing (rc : String) (pz : Puzzle) (t0 : Nat)
    (ops : List GameOp)
    (h : ops.all (fun op => !isFinishOp op) = true) :
    (runOps (GameLogic.createGame rc pz t0) ops).roundStatus = RoundStatus.active →
    (runOps (GameLogic.createGame rc pz t0) ops).gameStatus = GameStatus.playing :=
  statusOk_runOps ops _ h (by intro hact; cases hact)

/-- C8 (amended) witness: the finishGame-free sequence `opsActive` reaches
an active round, and the invariant gives `gameStatus = playing` there. -/
theorem roundActive_imp_playing_witness :
    (opsActive.all (fun op => !isFinishOp op) = true) ∧
    ((runOps (GameLogic.createGame "4821" pzEx 0) opsActive).roundStatus
        = RoundStatus.active →
     (runOps (GameLogic.createGame "4821" pzEx 0) opsActive).gameStatus
        = GameStatus.playing) :=
  ⟨by decide, roundActive_imp_playing "4821" pzEx 0 opsActive (by decide)⟩

/-! Tie detection in `finishGame`. -/

theorem scoreEntries_set_finished (g : Game) :
    GameLogic.scoreEntries { g with gameStatus := GameStatus.finished }
      = GameLogic.scoreEntries g := rfl

/-- C6: for a game with at least two players, `finishGame` produces final
results whose `finalScores` is exactly the players' score entries reordered
descending by `totalScore`; `isTie` is true exactly when two or more
entries share the maximum `totalScore`, in which case `winner` is `null`,
and otherwise `winner` is the unique entry carrying the maximum. -/
theorem finishGame_tie_detection (g : Game) (t : Nat)
    (h2 : 2 ≤ g.players.length) :
    ∃ fr w,
      (GameLogic.finishGame g t).2 = some fr ∧
      fr.finalScores.Perm (GameLogic.scoreEntries g) ∧
      SortedDesc fr.finalScores ∧
      w ∈ GameLogic.scoreEntries g ∧
      (∀ e ∈ GameLogic.scoreEntries g, e.totalScore ≤ w.totalScore) ∧
      (fr.isTie = true ↔
        2 ≤ ((GameLogic.scoreEntries g).filter
              (fun e => decide (e.totalScore = w.totalScore))).length) ∧
      (fr.isTie = true → fr.winner = none) ∧
      (fr.isTie = false → fr.winner = some w ∧
        ∀ e ∈ GameLogic.scoreEntries g, e.totalScore = w.totalScore → e = w) := by
  have hperm0 : (GameLogic.sortScoresDesc (GameLogic.scoreEntries g)).Perm
      (GameLogic.scoreEntries g) := sortScoresDesc_perm _
  have hsorted0 : SortedDesc (GameLogic.sortScoresDesc (GameLogic.scoreEntries g)) :=
    sortScoresDesc_sorted _
  have hlen : (GameLogic.sortScoresDesc (GameLogic.scoreEntries g)).length
      = g.players.length := by
    rw [hperm0.length_eq, scoreEntries_length]
  unfold GameLogic.finishGame
  dsimp only
  rcases hsort : GameLogic.sortScoresDesc
      (GameLogic.scoreEntries { g with gameStatus := GameStatus.finished })
    with _ | ⟨w, rest⟩
  · exfalso
    have hsort' : GameLogic.sortScoresDesc (GameLogic.scoreEntries g) = [] := hsort
    rw [hsort'] at hlen
    simp at hlen
    omega
  · have hsort' : GameLogic.sortScoresDesc (GameLogic.scoreEntries g) = w :: rest := hsort
    have hpermc : (w :: rest).Perm (GameLogic.scoreEntries g) := hsort' ▸ hperm0
    have hsortedc : SortedDesc (w :: rest) := hsort' ▸ hsorted0
    have hwmem : w ∈ GameLogic.scoreEntries g :=
      hpermc.mem_iff.mp (List.mem_cons_self w rest)
    have h1lt : 1 < (w :: rest).length := by
      rw [hpermc.length_eq, scoreEntries_length]
      omega
    have hfl : ((w :: rest).filter (fun e => decide (e.totalScore = w.totalScore))).length
        = ((GameLogic.scoreEntries g).filter
            (fun e => decide (e.totalScore = w.totalScore))).length :=
      (hpermc.filter _).length_eq
    refine ⟨_, w, rfl, ?_, ?_, hwmem, ?_, ?_, ?_, ?_⟩
    · exact hpermc
    · exact hsortedc
    · intro e he
      rcases List.mem_cons.mp (hpermc.mem_iff.mpr he) with h | h
      · rw [h]
      · exact List.rel_of_sorted_cons hsortedc e h
    · dsimp only
      rw [Bool.and_eq_true, decide_eq_true_eq, decide_eq_true_eq]
      constructor
      · rintro ⟨-, hb⟩
        rw [hfl] at hb
        omega
      · intro hb
        refine ⟨h1lt, ?_⟩
        rw [hfl]
        omega
    · intro htie
      dsimp only at htie ⊢
      rw [if_pos htie]
    · intro hfalse
      dsimp only at hfalse ⊢
      have hd2 : decide (1 < ((w :: rest).filter
          (fun e => decide (e.totalScore = w.totalScore))).length) = false := by
        rcases Bool.and_eq_false_iff.mp hfalse with h | h
        · exact absurd h1lt (by simpa using h)
        · exact h
      rw [decide_eq_false_iff_not] at hd2
      have hcount : ((GameLogic.scoreEntries g).filter
          (fun e => decide (e.totalScore = w.totalScore))).length ≤ 1 := by
        rw [← hfl]
        omega
      have hwfil : w ∈ (GameLogic.scoreEntries g).filter
          (fun e => decide (e.totalScore = w.totalScore)) :=
        List.mem_filter.mpr ⟨hwmem, by simp⟩
      have hone : ((GameLogic.scoreEntries g).filter
          (fun e => decide (e.totalScore = w.totalScore))).length = 1 := by
        have := List.length_pos.mpr (List.ne_nil_of_mem hwfil)
        omega
      obtain ⟨x, hx⟩ := List.length_eq_one.mp hone
      have hxw : w = x := by
        rw [hx] at hwfil
        simpa using hwfil
      constructor
      · simp only [hfalse]
        rfl
      · intro e he hescore
        have hefil : e ∈ (GameLogic.scoreEntries g).filter
            (fun e => decide (e.totalScore = w.totalScore)) :=
          List.mem_filter.mpr ⟨he, by simp [hescore]⟩
        rw [hx, ← hxw] at hefil
        simpa using hefil

/-- Example finished-game players with distinct totals for the C6 witness. -/
def gScoresEx : Game :=
  { gameEx with players :=
      [("a", { pAEx with id := "a", totalScore := 74 }),
       ("b", { pBEx with id := "b", totalScore := 16, connected := true })] }

/-- C6 witness: two players with totals 74 and 16. -/
theorem finishGame_tie_detection_witness :
    2 ≤ gScoresEx.players.length ∧
    (∃ fr w,
      (GameLogic.finishGame gScoresEx 10).2 = some fr ∧
      fr.finalScores.Perm (GameLogic.scoreEntries gScoresEx) ∧
      SortedDesc fr.finalScores ∧
      w ∈ GameLogic.scoreEntries gScoresEx ∧
      (∀ e ∈ GameLogic.scoreEntries gScoresEx, e.totalScore ≤ w.totalScore) ∧
      (fr.isTie = true ↔
        2 ≤ ((GameLogic.scoreEntries gScoresEx).filter
              (fun e => decide (e.totalScore = w.totalScore))).length) ∧
      (fr.isTie = true → fr.winner = none) ∧
      (fr.isTie = false → fr.winner = some w ∧
        ∀ e ∈ GameLogic.scoreEntries gScoresEx, e.totalScore = w.totalScore → e = w)) :=
  ⟨by decide, finishGame_tie_detection gScoresEx 10 (by decide)⟩

/-! Score-accounting invariant: `totalScore` equals the sum of the
`roundScore` snapshots stored in `roundResults`. -/

/-- Keys of the players map are distinct (true of every reachable game:
`createGame` starts empty and JS property assignment never duplicates). -/
def KeysOk (g : Game) : Prop :=
  (g.players.map Prod.fst).Nodup

/-- Every player record's `id` equals its key in the players map. -/
def IdsOk (g : Game) : Prop :=
  ∀ kp ∈ g.players, (kp : String × Player).2.id = kp.1

/-- Every player's `totalScore` equals the sum of their `roundScore`
snapshots in `roundResults`. -/
def ScoreOk (g : Game) : Prop :=
  ∀ kp ∈ g.players,
    (kp : String × Player).2.totalScore = sumRoundScores kp.1 g.roundResults

theorem sumRoundScores_nil (k : String) : sumRoundScores k [] = 0 := rfl

theorem sumRoundScores_append (k : String) (rrs : List RoundResult)
    (rr : RoundResult) :
    sumRoundScores k (rrs ++ [rr])
      = sumRoundScores k rrs
        + ((alookup k rr.players).map PlayerSnapshot.roundScore).getD 0 := by
  unfold sumRoundScores
  rw [List.foldl_append]
  rfl

theorem scoreInv_createGame (rc : String) (pz : Puzzle) (t : Nat) :
    (KeysOk (GameLogic.createGame rc pz t) ∧ IdsOk (GameLogic.createGame rc pz t) ∧
     ScoreOk (GameLogic.createGame rc pz t)) ∧
    (GameLogic.createGame rc pz t).roundResults = [] := by
  refine ⟨⟨?_, ?_, ?_⟩, rfl⟩ <;> simp [GameLogic.createGame, KeysOk, IdsOk, ScoreOk]

theorem scoreInv_addStep (g : Game) (a : String × String × Nat)
    (hk : KeysOk g) (hi : IdsOk g) (hs : ScoreOk g) (hrr : g.roundResults = []) :
    (KeysOk (addStep g a) ∧ IdsOk (addStep g a) ∧ ScoreOk (addStep g a)) ∧
    (addStep g a).roundResults = [] := by
  unfold addStep GameLogic.addPlayer
  by_cases h : GameLogic.MAX_PLAYERS ≤ g.players.length
  · rw [if_pos h]
    exact ⟨⟨hk, hi, hs⟩, hrr⟩
  · rw [if_neg h]
    refine ⟨⟨?_, ?_, ?_⟩, hrr⟩
    · show ((aset a.1 _ g.players).map Prod.fst).Nodup
      cases hA : alookup a.1 g.players with
      | some q =>
        rw [aset_keys_of_some (by simp [hA]) _]
        exact hk
      | none =>
        rw [aset_keys_of_none hA _]
        have hnot : a.1 ∉ g.players.map Prod.fst := alookup_eq_none_iff.mp hA
        refine List.Nodup.append hk (List.nodup_singleton a.1) ?_
        intro x hx hmem
        rw [List.mem_singleton] at hmem
        subst hmem
        exact hnot hx
    · intro kp hkp
      rcases mem_aset hkp with hEq | hmem
      · rw [hEq]
      · exact hi kp hmem
    · intro kp hkp
      show kp.2.totalScore = sumRoundScores kp.1 g.roundResults
      rw [hrr, sumRoundScores_nil]
      rcases mem_aset hkp with hEq | hmem
      · rw [hEq]
      · have := hs kp hmem
        rw [hrr, sumRoundScores_nil] at this
        exact this

theorem scoreInv_addFold (adds : List (String × String × Nat)) :
    ∀ g : Game, KeysOk g → IdsOk g → ScoreOk g → g.roundResults = [] →
      (KeysOk (adds.foldl addStep g) ∧ IdsOk (adds.foldl addStep g) ∧
       ScoreOk (adds.foldl addStep g)) ∧
      (adds.foldl addStep g).roundResults = [] := by
  induction adds with
  | nil => exact fun g hk hi hs hr => ⟨⟨hk, hi, hs⟩, hr⟩
  | cons a adds ih =>
    intro g hk hi hs hr
    rw [List.foldl_cons]
    obtain ⟨⟨hk', hi', hs'⟩, hr'⟩ := scoreInv_addStep g a hk hi hs hr
    exact ih (addStep g a) hk' hi' hs' hr'

theorem scoreInv_setupGame (rc : String) (pz : Puzzle) (t0 : Nat)
    (adds : List (String × String × Nat)) :
    (KeysOk (setupGame rc pz t0 adds) ∧ IdsOk (setupGame rc pz t0 adds) ∧
     ScoreOk (setupGame rc pz t0 adds)) ∧
    (setupGame rc pz t0 adds).roundResults = [] := by
  obtain ⟨⟨hk, hi, hs⟩, hr⟩ := scoreInv_createGame rc pz t0
  exact scoreInv_addFold adds _ hk hi hs hr

theorem scoreInv_of_map (g g' : Game) (f : Player → Player)
    (hpl : g'.players = g.players.map (fun kp => (kp.1, f kp.2)))
    (hrr : g'.roundResults = g.roundResults)
    (hid : ∀ p, (f p).id = p.id)
    (htot : ∀ p, (f p).totalScore = p.totalScore)
    (hk : KeysOk g) (hi : IdsOk g) (hs : ScoreOk g) :
    KeysOk g' ∧ IdsOk g' ∧ ScoreOk g' := by
  refine ⟨?_, ?_, ?_⟩
  · unfold KeysOk
    rw [hpl, map_fst_map_snd]
    exact hk
  · intro kp hkp
    rw [hpl] at hkp
    rcases List.mem_map.mp hkp with ⟨kq, hkq, rfl⟩
    show (f kq.2).id = kq.1
    rw [hid]
    exact hi kq hkq
  · intro kp hkp
    rw [hpl] at hkp
    rcases List.mem_map.mp hkp with ⟨kq, hkq, rfl⟩
    show (f kq.2).totalScore = sumRoundScores kq.1 g'.roundResults
    rw [htot, hrr]
    exact hs kq hkq

theorem scoreInv_startStep (g : Game) (pz : Puzzle) (t : Nat)
    (hk : KeysOk g) (hi : IdsOk g) (hs : ScoreOk g) :
    KeysOk (startStep g pz t) ∧ IdsOk (startStep g pz t) ∧
    ScoreOk (startStep g pz t) := by
  unfold startStep GameLogic.startRound
  by_cases h : GameLogic.TOTAL_ROUNDS ≤ g.currentRound
  · rw [if_pos h]
    exact ⟨hk, hi, hs⟩
  · rw [if_neg h]
    dsimp only
    by_cases h2 : 1 < g.currentRound + 1
    · rw [if_pos h2]
      exact scoreInv_of_map g _
        (fun p => { p with words := [], roundScore := 0, ready := false,
                           hasSubmittedResults := false })
        rfl rfl (fun _ => rfl) (fun _ => rfl) hk hi hs
    · rw [if_neg h2]
      exact scoreInv_of_map g _
        (fun p => { p with words := [], roundScore := 0, ready := false,
                           hasSubmittedResults := false })
        rfl rfl (fun _ => rfl) (fun _ => rfl) hk hi hs

theorem scoreInv_submitStep (g : Game) (s : String × Submission × Nat)
    (hk : KeysOk g) (hi : IdsOk g) (hs : ScoreOk g) :
    KeysOk (submitStep g s) ∧ IdsOk (submitStep g s) ∧
    ScoreOk (submitStep g s) := by
  unfold submitStep GameLogic.processRoundResults
  cases hA : alookup s.1 g.players with
  | none => exact ⟨hk, hi, hs⟩
  | some p =>
    refine ⟨?_, ?_, ?_⟩
    · show ((aset s.1 _ g.players).map Prod.fst).Nodup
      rw [aset_keys_of_some (by simp [hA]) _]
      exact hk
    · intro kp hkp
      rcases mem_aset hkp with hEq | hmem
      · rw [hEq]
        exact hi (s.1, p) (alookup_mem hA)
      · exact hi kp hmem
    · intro kp hkp
      rcases mem_aset hkp with hEq | hmem
      · rw [hEq]
        show p.totalScore = sumRoundScores s.1 g.roundResults
        exact hs (s.1, p) (alookup_mem hA)
      · show kp.2.totalScore = sumRoundScores kp.1 g.roundResults
        exact hs kp hmem

theorem scoreInv_submitFold (subs : List (String × Submission × Nat)) :
    ∀ g : Game, KeysOk g → IdsOk g → ScoreOk g →
      KeysOk (subs.foldl submitStep g) ∧ IdsOk (subs.foldl submitStep g) ∧
      ScoreOk (subs.foldl submitStep g) := by
  induction subs with
  | nil => exact fun g hk hi hs => ⟨hk, hi, hs⟩
  | cons s subs ih =>
    intro g hk hi hs
    rw [List.foldl_cons]
    obtain ⟨hk', hi', hs'⟩ := scoreInv_submitStep g s hk hi hs
    exact ih (submitStep g s) hk' hi' hs'

/-- Player update performed by `endRound`: add the round score to the
running total. -/
def addRoundScore (p : Player) : Player :=
  { p with totalScore := p.totalScore + p.roundScore }

theorem scoreOk_end_update (g : Game) (t : Nat)
    (hk : KeysOk g) (hi : IdsOk g) (hs : ScoreOk g) (G : Game)
    (hpl : G.players = g.players.map (fun kp => (kp.1, addRoundScore kp.2)))
    (hrr : G.roundResults = g.roundResults ++
      [{ round := g.currentRound, endedAt := t, puzzle := g.puzzle,
         players := (avalues (g.players.map (fun kp => (kp.1, addRoundScore kp.2)))).map
           (fun p => (p.id,
             { name := p.name, words := p.words, roundScore := p.roundScore,
               totalScore := p.totalScore, wordCount := p.words.length })) }]) :
    KeysOk G ∧ IdsOk G ∧ ScoreOk G := by
  have hplids : ∀ kp ∈ g.players.map (fun kp => (kp.1, addRoundScore kp.2)),
      (kp : String × Player).2.id = kp.1 := by
    intro kp hkp
    rcases List.mem_map.mp hkp with ⟨kq, hkq, rfl⟩
    exact hi kq hkq
  refine ⟨?_, ?_, ?_⟩
  · unfold KeysOk
    rw [hpl, map_fst_map_snd]
    exact hk
  · intro kp hkp
    rw [hpl] at hkp
    exact hplids kp hkp
  · intro kp hkp
    rw [hpl] at hkp
    rcases List.mem_map.mp hkp with ⟨kq, hkq, rfl⟩
    rw [hrr, sumRoundScores_append]
    dsimp only
    rw [alookup_keyed_by_id kq.1 _ hplids, alookup_map_snd,
      alookup_of_mem_nodup hk hkq]
    show kq.2.totalScore + kq.2.roundScore
      = sumRoundScores kq.1 g.roundResults + kq.2.roundScore
    rw [hs kq hkq]

theorem scoreInv_endStep (g : Game) (t : Nat)
    (hk : KeysOk g) (hi : IdsOk g) (hs : ScoreOk g) :
    KeysOk (GameLogic.endRound g t).1 ∧ IdsOk (GameLogic.endRound g t).1 ∧
    ScoreOk (GameLogic.endRound g t).1 := by
  unfold GameLogic.endRound
  by_cases h : g.roundStatus = RoundStatus.ended
  · rw [if_pos h]
    exact ⟨hk, hi, hs⟩
  · rw [if_neg h]
    dsimp only
    split
    · split
      next g4 x heq =>
        have hf := finishGame_pair_fields _ t _ _ heq
        exact scoreOk_end_update g t hk hi hs g4 hf.1 hf.2.2.2.1
      next g4 heq =>
        have hf := finishGame_pair_fields _ t _ _ heq
        exact scoreOk_end_update g t hk hi hs g4 hf.1 hf.2.2.2.1
    · exact scoreOk_end_update g t hk hi hs _ rfl rfl

theorem scoreInv_playRound (g : Game) (r : RoundScript)
    (hk : KeysOk g) (hi : IdsOk g) (hs : ScoreOk g) :
    KeysOk (playRound g r) ∧ IdsOk (playRound g r) ∧ ScoreOk (playRound g r) := by
  unfold playRound
  obtain ⟨hk1, hi1, hs1⟩ := scoreInv_startStep g r.puzzle r.startT hk hi hs
  obtain ⟨hk2, hi2, hs2⟩ := scoreInv_submitFold r.subs _ hk1 hi1 hs1
  exact scoreInv_endStep _ r.endT hk2 hi2 hs2

theorem scoreInv_playGame (rounds : List RoundScript) :
    ∀ g : Game, KeysOk g → IdsOk g → ScoreOk g →
      KeysOk (playGame g rounds) ∧ IdsOk (playGame g rounds) ∧
      ScoreOk (playGame g rounds) := by
  induction rounds with
  | nil => exact fun g hk hi hs => ⟨hk, hi, hs⟩
  | cons r rounds ih =>
    intro g hk hi hs
    show KeysOk ((r :: rounds).foldl playRound g) ∧ _ ∧ _
    rw [List.foldl_cons]
    obtain ⟨hk', hi', hs'⟩ := scoreInv_playRound g r hk hi hs
    exact ih (playRound g r) hk' hi' hs'

/-- C3: for every game built by `createGame` plus lobby joins and then
played through any sequence of rounds (`startRound`, client submissions,
one effective `endRound` each) until `finishGame` has run, every player's
`totalScore` equals the sum of that player's `roundScore` snapshots
recorded in `game.roundResults` — one snapshot per round played. -/
theorem totalScore_eq_sum_roundScores (rc : String) (pz : Puzzle) (t0 : Nat)
    (adds : List (String × String × Nat)) (rounds : List RoundScript)
    (hfin : (playGame (setupGame rc pz t0 adds) rounds).gameStatus
      = GameStatus.finished) :
    ∀ kp ∈ (playGame (setupGame rc pz t0 adds) rounds).players,
      (kp : String × Player).2.totalScore
        = sumRoundScores kp.1 (playGame (setupGame rc pz t0 adds) rounds).roundResults := by
  obtain ⟨⟨hk, hi, hs⟩, -⟩ := scoreInv_setupGame rc pz t0 adds
  exact (scoreInv_playGame rounds _ hk hi hs).2.2

/-- Submission of the spec's §8 scenario player A (74-point pangram). -/
def subAEx : Submission :=
  { words := [{ word := "allowance", points := 74, isPangram := true }],
    totalScore := 74 }

/-- Submission of the spec's §8 scenario player B (16 points). -/
def subBEx : Submission :=
  { words := [{ word := "acne", points := 16, isPangram := false }],
    totalScore := 16 }

/-- Round script used by the C3 witness. -/
def roundScriptEx (i : Nat) : RoundScript :=
  { puzzle := pzEx, startT := i * 100,
    subs := [("a", subAEx, i * 100 + 5), ("b", subBEx, i * 100 + 6)],
    endT := i * 100 + 95 }

/-- Lobby joins used by the C3 witness. -/
def addsEx : List (String × String × Nat) := [("a", "A", 0), ("b", "B", 0)]

/-- C3 witness: a full 3-round game (spec's §8 scenario repeated thrice);
the game finishes and each player's total is the sum of their snapshots. -/
theorem totalScore_eq_sum_roundScores_witness :
    (playGame (setupGame "4821" pzEx 0 addsEx)
        [roundScriptEx 1, roundScriptEx 2, roundScriptEx 3]).gameStatus
      = GameStatus.finished ∧
    ∀ kp ∈ (playGame (setupGame "4821" pzEx 0 addsEx)
        [roundScriptEx 1, roundScriptEx 2, roundScriptEx 3]).players,
      (kp : String × Player).2.totalScore
        = sumRoundScores kp.1 (playGame (setupGame "4821" pzEx 0 addsEx)
            [roundScriptEx 1, roundScriptEx 2, roundScriptEx 3]).roundResults :=
  ⟨by decide,
   totalScore_eq_sum_roundScores "4821" pzEx 0 addsEx
     [roundScriptEx 1, roundScriptEx 2, roundScriptEx 3] (by decide)⟩

end SpellingBee
